import Mathlib

/-!
Shallow embedding of the planet-earth repository's search service
(`earth-mcp/index.ts`, `earth-mcp/db/schema.ts`) and of the document
chunking algorithm given as pseudocode in the repository README
("Chunking Pseudocode").  Machine floats (embedding components, cosine
scores) are embedded as exact rationals; database tables are lists of
row structures in insertion order; the asynchronous tool handlers are
pure state-passing functions.
-/

namespace PlanetEarth

/-! ## Definitions -/

/-! ### Text chunking (README, "Chunking Pseudocode")

The README specifies the chunker as:

  3. For i in range(0, len(tokens), chunk_size - overlap):
        chunk_tokens = tokens[i : i + chunk_size]

`pyRange stop step` embeds Python's `range(0, stop, step)` for a positive
step; `(stop + step - 1) / step` is its number of elements. -/

def pyRange (stop step : Nat) : List Nat :=
  List.range' 0 ((stop + step - 1) / step) step

/-- The chunking loop of the README pseudocode: one window
`tokens[i : i + chunk_size]` per start offset `i` of
`range(0, len(tokens), chunk_size - overlap)`. -/
def chunkTokens (tokens : List α) (chunkSize overlap : Nat) : List (List α) :=
  (pyRange tokens.length (chunkSize - overlap)).map fun i =>
    (tokens.drop i).take chunkSize

/-- Concatenate chunks after dropping the first `overlap` tokens of every
chunk except the first: the reconstruction operation of the spec's
"concatenating de-overlapped chunks reconstructs the token stream". -/
def deOverlap (overlap : Nat) : List (List α) → List α
  | [] => []
  | c :: rest => c ++ (rest.map (List.drop overlap)).flatten

/-- Config-validating entry point: the spec's `InvalidChunkConfigError`
when `0 ≤ overlap < chunk_size` is violated (Python's `range` likewise
refuses a zero step). -/
def chunk (tokens : List α) (chunkSize overlap : Nat) :
    Except String (List (List α)) :=
  if overlap < chunkSize then .ok (chunkTokens tokens chunkSize overlap)
  else .error "InvalidChunkConfigError"

/-! ### Relational schema (`earth-mcp/db/schema.ts`)

Every table is a list of rows in insertion order (a later insert appends
at the end); pgvector columns are lists of exact rationals; nullable
columns are `Option`; `timestamp` columns are abstract instants `Nat`;
`jsonb` payloads are carried as opaque strings. -/

/-- A row of the `endpoints` table. -/
structure EndpointRow where
  id : String
  schema_id : String
  path : String
  method : String
  operation_id : Option String
  hash : String
  deleted_at : Option Nat
  summary : Option String
  description : Option String
  tags : Option String
  spec : Option String
  embedding_vector : List ℚ
deriving DecidableEq, Repr

/-- A row of the `audits` table. -/
structure AuditRow where
  id : Nat
  query : String
  total_result_count : Nat
  created_at : Nat
deriving DecidableEq, Repr

/-- A row of the `audit_results` table. -/
structure AuditResultRow where
  id : Nat
  audit_id : Nat
  schema_id : String
  endpoint_id : String
  result_count : Nat
  created_at : Nat
deriving DecidableEq, Repr

/-- A row of the `documents` table. -/
structure DocumentRow where
  id : String
  title : String
  original_filename : Option String
  file_type : String
  text : Option String
  created_at : Nat
deriving DecidableEq, Repr

/-- A row of the `document_chunks` table. -/
structure DocumentChunkRow where
  id : String
  document_id : String
  chunk_index : Nat
  text : String
  created_at : Nat
  embedding : List ℚ
deriving DecidableEq, Repr

/-! ### Similarity (`earth-mcp/index.ts`)

Both tools compute the SQL expression
`1 - (cosineDistance(column, vector))`, i.e. cosine similarity.  The
embedding model is invoked with `normalize: true`, so its vectors are
L2-normalized and cosine similarity of such vectors is exactly their dot
product; the score is embedded as that dot product over the rationals. -/

/-- Dot product of two vectors. -/
def dot (u v : List ℚ) : ℚ := (List.zipWith (· * ·) u v).sum

/-- The score `1 - cosineDistance(endpoints.embedding_vector, vector)`
selected, filtered and ordered on by `find_api_spec`. -/
def similarity (vector : List ℚ) (r : EndpointRow) : ℚ :=
  dot vector r.embedding_vector

/-- The score `1 - cosineDistance(documentChunks.embedding, vector)`
selected, filtered and ordered on by `search_documents`. -/
def chunkSimilarity (vector : List ℚ) (c : DocumentChunkRow) : ℚ :=
  dot vector c.embedding

/-! ### `ORDER BY similarity DESC`

The queries order by the similarity expression alone — no secondary sort
key appears in the source.  The clause is embedded as a stable descending
insertion sort on the table's row order, the deterministic realization of
an `ORDER BY` that specifies nothing about equal keys. -/

/-- Insert `x` into a list sorted by nonincreasing score, before the first
element of strictly smaller score (elements of equal score keep their
existing position ahead of `x`). -/
def insertDesc (score : α → ℚ) (x : α) : List α → List α
  | [] => [x]
  | y :: ys => if score y ≤ score x then x :: y :: ys else y :: insertDesc score x ys

/-- Stable descending sort by `score`. -/
def sortByScoreDesc (score : α → ℚ) : List α → List α
  | [] => []
  | x :: xs => insertDesc score x (sortByScoreDesc score xs)

/-! ### Embedding generation (`getEmbedding`, `initializeEmbeddingModel`)

`initializeEmbeddingModel` assigns the process-global `embeddingModel`
once loading succeeds (and aborts the process on failure); the server
state carries the resulting readiness flag.  The external model itself is
a parameter `model : String → List ℚ` (deterministic, per the spec).
`getEmbedding` throws when the global is still `null`; its own `catch`
rewraps the message, which is what a caller observes. -/

/-- The error `getEmbedding` surfaces when called before
`initializeEmbeddingModel` has completed. -/
def modelNotReadyMessage : String :=
  "Failed to generate embedding: Embedding model not initialized"

/-- `getEmbedding`: reject when the model global is unset, otherwise embed. -/
def getEmbedding (modelReady : Bool) (model : String → List ℚ)
    (text : String) : Except String (List ℚ) :=
  if modelReady then .ok (model text) else .error modelNotReadyMessage

/-- The fixed instruction text prepended to every query before embedding
(`EMBEDDING_INSTRUCTIONS` in `earth-mcp/index.ts`). -/
def EMBEDDING_INSTRUCTIONS : String :=
  "Represent this sentence for searching relevant passages: "

/-! ### Server state -/

/-- The mutable state the two tool handlers can read or write: the model
global, the database tables, a clock and a fresh-id supply for
`new Date()` / `uuidv4()`, and fault flags modelling a database error
thrown by the two audit `insert` statements (the only writes on the
query path). -/
structure Server where
  modelReady : Bool
  now : Nat
  nextId : Nat
  endpointsTable : List EndpointRow
  documentsTable : List DocumentRow
  documentChunksTable : List DocumentChunkRow
  auditsTable : List AuditRow
  auditResultsTable : List AuditResultRow
  auditInsertFails : Bool
  auditResultsInsertFails : Bool
deriving DecidableEq, Repr

/-- An MCP tool response: `isError` mirrors the `isError: true` branch;
`results` the `results` array of the success JSON payload. -/
structure ToolResult (α : Type) where
  isError : Bool
  results : List α
deriving DecidableEq, Repr

/-! ### `find_api_spec` -/

/-- One element of the `mapped` array of `find_api_spec` (source lines
100–111).  `tags` is stored as its raw JSON string: the source applies
`JSON.parse` (default `[]`), whose output no claim observes, so the
parse is not modelled. -/
structure MappedEndpoint where
  id : String
  schema_id : String
  path : String
  method : String
  operation_id : Option String
  summary : Option String
  description : Option String
  tags : Option String
  similarity : ℚ
  spec : Option String
deriving DecidableEq, Repr

/-- The result-object construction of `find_api_spec`. -/
def mapEndpoint (vector : List ℚ) (e : EndpointRow) : MappedEndpoint :=
  { id := e.id, schema_id := e.schema_id, path := e.path, method := e.method,
    operation_id := e.operation_id, summary := e.summary,
    description := e.description, tags := e.tags,
    similarity := similarity vector e, spec := e.spec }

/-- The `find_api_spec` SELECT: `WHERE similarity > 0.5`,
`ORDER BY similarity DESC`, `LIMIT limit`. -/
def endpointsQuery (table : List EndpointRow) (vector : List ℚ)
    (limit : Nat) : List EndpointRow :=
  (sortByScoreDesc (similarity vector)
    (table.filter fun r => decide ((1 : ℚ)/2 < similarity vector r))).take limit

/-- The `find_api_spec` tool handler: embed the instruction-prefixed
query, run the similarity SELECT, map the rows, then attempt the audit
writes inside their own try/catch (a failure there is swallowed), and
return the mapped results.  Any error before the audit block (in
particular an unready model) yields the `isError` response. -/
def find_api_spec (model : String → List ℚ) (st : Server)
    (api_description : String) (limit : Nat) :
    ToolResult MappedEndpoint × Server :=
  match getEmbedding st.modelReady model
      (EMBEDDING_INSTRUCTIONS ++ api_description) with
  | .error _ => ({ isError := true, results := [] }, st)
  | .ok vector =>
    let mapped := (endpointsQuery st.endpointsTable vector limit).map
      (mapEndpoint vector)
    let st' :=
      if st.auditInsertFails then st
      else
        let auditId := st.nextId
        let st1 : Server :=
          { st with
            auditsTable := st.auditsTable ++
              [{ id := auditId, query := api_description,
                 total_result_count := mapped.length, created_at := st.now }],
            nextId := st.nextId + 1 }
        if st.auditResultsInsertFails then st1
        else
          { st1 with
            auditResultsTable := st1.auditResultsTable ++
              mapped.enum.map fun p =>
                { id := st1.nextId + p.1, audit_id := auditId,
                  schema_id := p.2.schema_id, endpoint_id := p.2.id,
                  result_count := 1, created_at := st.now },
            nextId := st1.nextId + mapped.length }
    ({ isError := false, results := mapped }, st')

/-! ### `search_documents` -/

/-- One element of the `mapped` array of `search_documents` (source lines
224–231). -/
structure DocumentSearchResult where
  document_id : String
  chunk_id : String
  title : String
  document_text : Option String
  score : ℚ
  created_at : Nat
deriving DecidableEq, Repr

/-- `INNER JOIN documents ON document_chunks.document_id = documents.id`. -/
def joinChunksDocuments (chunks : List DocumentChunkRow)
    (docs : List DocumentRow) : List (DocumentChunkRow × DocumentRow) :=
  chunks.flatMap fun c =>
    (docs.filter fun d => d.id = c.document_id).map fun d => (c, d)

/-- The `search_documents` SELECT over the join: `WHERE similarity > 0.5`,
`ORDER BY similarity DESC`, `LIMIT limit`. -/
def documentsQuery (chunks : List DocumentChunkRow) (docs : List DocumentRow)
    (vector : List ℚ) (limit : Nat) : List (DocumentChunkRow × DocumentRow) :=
  (sortByScoreDesc (fun p => chunkSimilarity vector p.1)
    ((joinChunksDocuments chunks docs).filter fun p =>
      decide ((1 : ℚ)/2 < chunkSimilarity vector p.1))).take limit

/-- The result-object construction of `search_documents`. -/
def mapDocumentResult (vector : List ℚ)
    (p : DocumentChunkRow × DocumentRow) : DocumentSearchResult :=
  { document_id := p.1.document_id, chunk_id := p.1.id, title := p.2.title,
    document_text := p.2.text, score := chunkSimilarity vector p.1,
    created_at := p.1.created_at }

/-- The `search_documents` tool handler: embed the instruction-prefixed
query, run the join query, map the rows and return them.  The handler
contains no insert statement — the server state is untouched. -/
def search_documents (model : String → List ℚ) (st : Server)
    (query : String) (limit : Nat) :
    ToolResult DocumentSearchResult × Server :=
  match getEmbedding st.modelReady model (EMBEDDING_INSTRUCTIONS ++ query) with
  | .error _ => ({ isError := true, results := [] }, st)
  | .ok vector =>
    ({ isError := false,
       results := (documentsQuery st.documentChunksTable st.documentsTable
         vector limit).map (mapDocumentResult vector) }, st)

/-! ### The zod `limit` schema -/

/-- `z.number().min(1).max(30).optional().default(d)` applied to the
`limit` argument of either tool: a missing value becomes the default
(`5` for `find_api_spec`, `10` for `search_documents`); a present value
outside `[1, 30]` is rejected with zod's validation message, which the
MCP layer surfaces as an invalid-request error. -/
def zodLimit (defaultValue : ℚ) (input : Option ℚ) : Except String ℚ :=
  match input with
  | none => .ok defaultValue
  | some v =>
    if v < 1 then .error "Number must be greater than or equal to 1"
    else if 30 < v then .error "Number must be less than or equal to 30"
    else .ok v

/-! ### Concrete fixtures (for witnesses and counterexamples) -/

/-- A stand-in embedding model mapping every text to the unit vector `[1]`. -/
def constModel : String → List ℚ := fun _ => [1]

/-- A stand-in embedding model agreeing with `constModel` on the
instruction-prefixed query "q" and differing everywhere else. -/
def prefixOnlyModel : String → List ℚ := fun s =>
  if s = EMBEDDING_INSTRUCTIONS ++ "q" then [1] else [0]

/-- An endpoint row whose vector scores similarity 1 against `[1]`. -/
def baseEndpoint : EndpointRow :=
  { id := "e1", schema_id := "s1", path := "/a", method := "GET",
    operation_id := none, hash := "h", deleted_at := none, summary := none,
    description := none, tags := none, spec := none, embedding_vector := [1] }

/-- A server with a loaded model, empty tables and no database faults. -/
def baseServer : Server :=
  { modelReady := true, now := 0, nextId := 0, endpointsTable := [],
    documentsTable := [], documentChunksTable := [], auditsTable := [],
    auditResultsTable := [], auditInsertFails := false,
    auditResultsInsertFails := false }

/-- `baseServer` with the single live endpoint `baseEndpoint`. -/
def epServer : Server := { baseServer with endpointsTable := [baseEndpoint] }

/-- `baseServer` with `baseEndpoint` soft-deleted (`deleted_at` set). -/
def deletedServer : Server :=
  { baseServer with
    endpointsTable := [{ baseEndpoint with deleted_at := some 0 }] }

/-- `baseServer` with one endpoint of similarity 3/10 against `[1]`:
below the fixed 0.5 cutoff. -/
def lowScoreServer : Server :=
  { baseServer with
    endpointsTable := [{ baseEndpoint with embedding_vector := [3/10] }] }

/-- `baseServer` with two equal-scoring endpoints, `"e1"` inserted before
`"e2"` (list order is insertion order). -/
def tieServer : Server :=
  { baseServer with
    endpointsTable := [baseEndpoint, { baseEndpoint with id := "e2" }] }

/-- A document row owning `baseChunk`. -/
def baseDocument : DocumentRow :=
  { id := "d1", title := "T", original_filename := none, file_type := "md",
    text := some "body", created_at := 0 }

/-- A chunk row of `baseDocument` scoring similarity 1 against `[1]`. -/
def baseChunk : DocumentChunkRow :=
  { id := "c1", document_id := "d1", chunk_index := 0, text := "body",
    created_at := 0, embedding := [1] }

/-- `baseServer` with one document and one matching chunk. -/
def docServer : Server :=
  { baseServer with
    documentsTable := [baseDocument],
    documentChunksTable := [baseChunk] }

/-- `epServer` before `initializeEmbeddingModel` has completed. -/
def notReadyServer : Server := { epServer with modelReady := false }

/-! ## Theorems -/

/-! ### Chunker lemmas -/

theorem pyRange_zero (step : Nat) : pyRange 0 step = [] := by
  have h : (0 + step - 1) / step = 0 := by
    rcases Nat.eq_zero_or_pos step with h | h
    · subst h; rfl
    · exact Nat.div_eq_of_lt (by omega)
  unfold pyRange
  rw [h]
  rfl

theorem chunkTokens_nil (chunkSize overlap : Nat) :
    chunkTokens ([] : List α) chunkSize overlap = [] := by
  simp [chunkTokens, pyRange_zero]

/-- Iteration count of the chunking loop: peeling off the first window. -/
theorem chunkCount_succ {n step : Nat} (hn : 1 ≤ n) (hstep : 1 ≤ step) :
    (n + step - 1) / step = (n - step + step - 1) / step + 1 := by
  rcases le_or_lt n step with h | h
  · have h1 : n - step = 0 := by omega
    have h2 : (0 + step - 1) / step = 0 := Nat.div_eq_of_lt (by omega)
    have h3 : n + step - 1 = (n - 1) + step := by omega
    have h4 : (n - 1) / step = 0 := Nat.div_eq_of_lt (by omega)
    rw [h1, h2, h3, Nat.add_div_right _ hstep, h4]
  · have h3 : n + step - 1 = (n - step + step - 1) + step := by omega
    rw [h3, Nat.add_div_right _ hstep]

/-- Unfolding of the chunking loop on a nonempty token stream: the first
window `tokens.take chunkSize`, then the loop restarted after advancing
by `chunkSize - overlap` tokens. -/
theorem chunkTokens_cons {chunkSize overlap : Nat} (hov : overlap < chunkSize)
    {tokens : List α} (h : tokens ≠ []) :
    chunkTokens tokens chunkSize overlap =
      tokens.take chunkSize ::
        chunkTokens (tokens.drop (chunkSize - overlap)) chunkSize overlap := by
  have hstep : 1 ≤ chunkSize - overlap := by omega
  have hn : 1 ≤ tokens.length := List.length_pos.mpr h
  unfold chunkTokens pyRange
  rw [List.length_drop, chunkCount_succ hn hstep, List.range'_succ,
    List.map_cons, List.drop_zero, Nat.zero_add]
  congr 1
  have hrange : List.range' (chunkSize - overlap)
      ((tokens.length - (chunkSize - overlap) + (chunkSize - overlap) - 1) /
        (chunkSize - overlap)) (chunkSize - overlap) =
      (List.range' 0
        ((tokens.length - (chunkSize - overlap) + (chunkSize - overlap) - 1) /
          (chunkSize - overlap)) (chunkSize - overlap)).map
        ((chunkSize - overlap) + ·) := by
    rw [List.map_add_range', Nat.add_zero]
  rw [hrange, List.map_map]
  refine List.map_congr_left fun i _ => ?_
  simp [Function.comp, List.drop_drop]

/-- Dropping `overlap` tokens from every window (the first included) and
concatenating yields the token stream minus its first `overlap` tokens. -/
theorem flatten_drop_chunkTokens {chunkSize overlap : Nat}
    (hov : overlap < chunkSize) (tokens : List α) :
    ((chunkTokens tokens chunkSize overlap).map (List.drop overlap)).flatten =
      tokens.drop overlap := by
  have hstep : 1 ≤ chunkSize - overlap := by omega
  suffices H : ∀ (n : Nat) (ts : List α), ts.length ≤ n →
      ((chunkTokens ts chunkSize overlap).map (List.drop overlap)).flatten =
        ts.drop overlap from H tokens.length tokens le_rfl
  intro n
  induction n with
  | zero =>
    intro ts hts
    have : ts = [] := List.length_eq_zero.mp (Nat.le_zero.mp hts)
    subst this
    simp [chunkTokens_nil]
  | succ n ih =>
    intro ts hts
    rcases List.eq_nil_or_concat ts with rfl | _
    · simp [chunkTokens_nil]
    · have hne : ts ≠ [] := by
        rintro rfl
        simp at *
      rw [chunkTokens_cons hov hne, List.map_cons, List.flatten_cons,
        ih (ts.drop (chunkSize - overlap)) (by
          rw [List.length_drop]
          have : 1 ≤ ts.length := List.length_pos.mpr hne
          omega)]
      have h1 : (ts.take chunkSize).drop overlap =
          (ts.drop overlap).take (chunkSize - overlap) := by
        rw [List.drop_take]
      have h2 : (ts.drop (chunkSize - overlap)).drop overlap =
          (ts.drop overlap).drop (chunkSize - overlap) := by
        rw [List.drop_drop, List.drop_drop, Nat.add_comm]
      rw [h1, h2, List.take_append_drop]

/-- De-overlapped concatenation of the chunker's windows reconstructs the
token stream exactly, for every valid config `overlap < chunkSize`. -/
theorem deOverlap_chunkTokens {chunkSize overlap : Nat}
    (hov : overlap < chunkSize) (tokens : List α) :
    deOverlap overlap (chunkTokens tokens chunkSize overlap) = tokens := by
  rcases List.eq_nil_or_concat tokens with rfl | _
  · simp [chunkTokens_nil, deOverlap]
  · have hne : tokens ≠ [] := by
      rintro rfl
      simp at *
    rw [chunkTokens_cons hov hne]
    show tokens.take chunkSize ++
        ((chunkTokens (tokens.drop (chunkSize - overlap)) chunkSize
          overlap).map (List.drop overlap)).flatten = tokens
    rw [flatten_drop_chunkTokens hov, List.drop_drop]
    have : chunkSize - overlap + overlap = chunkSize := by omega
    rw [this, List.take_append_drop]

/-- Shape of the `j`-th window: the `chunkSize`-token slice starting at
offset `j * (chunkSize - overlap)`. -/
theorem chunkTokens_getElem {chunkSize overlap : Nat} (tokens : List α)
    (j : Nat) (hj : j < (chunkTokens tokens chunkSize overlap).length) :
    (chunkTokens tokens chunkSize overlap)[j] =
      (tokens.drop (j * (chunkSize - overlap))).take chunkSize := by
  unfold chunkTokens pyRange at *
  rw [List.getElem_map, List.getElem_range']
  rw [Nat.zero_add, Nat.mul_comm]

/-- Every window the chunker emits holds at most `chunkSize` tokens. -/
theorem chunkTokens_length_le {chunkSize overlap : Nat} {tokens : List α}
    {c : List α} (hc : c ∈ chunkTokens tokens chunkSize overlap) :
    c.length ≤ chunkSize := by
  unfold chunkTokens at hc
  rcases List.mem_map.mp hc with ⟨i, _, rfl⟩
  exact List.length_take_le _ _

/-! ### Sort lemmas -/

theorem mem_insertDesc {score : α → ℚ} {x y : α} {l : List α} :
    y ∈ insertDesc score x l ↔ y = x ∨ y ∈ l := by
  induction l with
  | nil => simp [insertDesc]
  | cons a as ih =>
    simp only [insertDesc]
    split
    · simp [List.mem_cons]
    · simp only [List.mem_cons, ih]
      tauto

theorem mem_sortByScoreDesc {score : α → ℚ} {x : α} {l : List α} :
    x ∈ sortByScoreDesc score l ↔ x ∈ l := by
  induction l with
  | nil => simp [sortByScoreDesc]
  | cons a as ih => simp [sortByScoreDesc, mem_insertDesc, ih]

theorem pairwise_insertDesc {score : α → ℚ} {x : α} {l : List α}
    (h : l.Pairwise fun a b => score b ≤ score a) :
    (insertDesc score x l).Pairwise fun a b => score b ≤ score a := by
  induction l with
  | nil => simp [insertDesc]
  | cons a as ih =>
    rw [List.pairwise_cons] at h
    simp only [insertDesc]
    split
    · rename_i hc
      refine List.Pairwise.cons ?_ (List.Pairwise.cons h.1 h.2)
      intro b hb
      rcases List.mem_cons.mp hb with rfl | hb
      · exact hc
      · exact le_trans (h.1 b hb) hc
    · rename_i hc
      refine List.Pairwise.cons ?_ (ih h.2)
      intro b hb
      rcases mem_insertDesc.mp hb with rfl | hb
      · exact le_of_lt (lt_of_not_le hc)
      · exact h.1 b hb

theorem pairwise_sortByScoreDesc (score : α → ℚ) (l : List α) :
    (sortByScoreDesc score l).Pairwise fun a b => score b ≤ score a := by
  induction l with
  | nil => simp [sortByScoreDesc]
  | cons a as ih => exact pairwise_insertDesc ih

theorem insertDesc_map (score : β → ℚ) (f : α → β) (x : α) (l : List α) :
    insertDesc score (f x) (l.map f) =
      (insertDesc (fun a => score (f a)) x l).map f := by
  induction l with
  | nil => rfl
  | cons a as ih =>
    simp only [List.map_cons, insertDesc]
    split
    · rfl
    · rw [List.map_cons, ih]

theorem sortByScoreDesc_map (score : β → ℚ) (f : α → β) (l : List α) :
    sortByScoreDesc score (l.map f) =
      (sortByScoreDesc (fun a => score (f a)) l).map f := by
  induction l with
  | nil => rfl
  | cons a as ih => rw [List.map_cons, sortByScoreDesc, sortByScoreDesc, ih,
      insertDesc_map]

/-! ### Handler characterization lemmas -/

theorem find_api_spec_not_ready (model : String → List ℚ) (st : Server)
    (d : String) (limit : Nat) (h : st.modelReady = false) :
    find_api_spec model st d limit = ({ isError := true, results := [] }, st) := by
  unfold find_api_spec getEmbedding
  rw [h]
  rfl

theorem find_api_spec_results_ready (model : String → List ℚ) (st : Server)
    (d : String) (limit : Nat) (h : st.modelReady = true) :
    (find_api_spec model st d limit).1 =
      { isError := false,
        results := (endpointsQuery st.endpointsTable
            (model (EMBEDDING_INSTRUCTIONS ++ d)) limit).map
          (mapEndpoint (model (EMBEDDING_INSTRUCTIONS ++ d))) } := by
  unfold find_api_spec getEmbedding
  rw [h]
  rfl

theorem find_api_spec_state_ok (model : String → List ℚ) (st : Server)
    (d : String) (limit : Nat) (h : st.modelReady = true)
    (h1 : st.auditInsertFails = false) (h2 : st.auditResultsInsertFails = false) :
    (find_api_spec model st d limit).2 =
      { st with
        auditsTable := st.auditsTable ++
          [{ id := st.nextId, query := d,
             total_result_count := (find_api_spec model st d limit).1.results.length,
             created_at := st.now }],
        auditResultsTable := st.auditResultsTable ++
          (find_api_spec model st d limit).1.results.enum.map (fun p =>
            { id := st.nextId + 1 + p.1, audit_id := st.nextId,
              schema_id := p.2.schema_id, endpoint_id := p.2.id,
              result_count := 1, created_at := st.now }),
        nextId := st.nextId + 1 + (find_api_spec model st d limit).1.results.length } := by
  unfold find_api_spec getEmbedding
  rw [h, h1, h2]
  rfl

theorem search_documents_not_ready (model : String → List ℚ) (st : Server)
    (q : String) (limit : Nat) (h : st.modelReady = false) :
    search_documents model st q limit = ({ isError := true, results := [] }, st) := by
  unfold search_documents getEmbedding
  rw [h]
  rfl

theorem search_documents_ready (model : String → List ℚ) (st : Server)
    (q : String) (limit : Nat) (h : st.modelReady = true) :
    search_documents model st q limit =
      ({ isError := false,
         results := (documentsQuery st.documentChunksTable st.documentsTable
             (model (EMBEDDING_INSTRUCTIONS ++ q)) limit).map
           (mapDocumentResult (model (EMBEDDING_INSTRUCTIONS ++ q))) }, st) := by
  unfold search_documents getEmbedding
  rw [h]
  rfl

theorem search_documents_state (model : String → List ℚ) (st : Server)
    (q : String) (limit : Nat) : (search_documents model st q limit).2 = st := by
  cases h : st.modelReady
  · rw [search_documents_not_ready model st q limit h]
  · rw [search_documents_ready model st q limit h]

theorem mem_endpointsQuery {table : List EndpointRow} {vector : List ℚ}
    {limit : Nat} {r : EndpointRow}
    (h : r ∈ endpointsQuery table vector limit) :
    r ∈ table ∧ (1 : ℚ)/2 < similarity vector r := by
  unfold endpointsQuery at h
  have h1 := List.mem_of_mem_take h
  rw [mem_sortByScoreDesc] at h1
  have h2 := List.mem_filter.mp h1
  exact ⟨h2.1, of_decide_eq_true h2.2⟩

theorem mem_documentsQuery {chunks : List DocumentChunkRow}
    {docs : List DocumentRow} {vector : List ℚ} {limit : Nat}
    {p : DocumentChunkRow × DocumentRow}
    (h : p ∈ documentsQuery chunks docs vector limit) :
    p ∈ joinChunksDocuments chunks docs ∧
      (1 : ℚ)/2 < chunkSimilarity vector p.1 := by
  unfold documentsQuery at h
  have h1 := List.mem_of_mem_take h
  rw [mem_sortByScoreDesc] at h1
  have h2 := List.mem_filter.mp h1
  exact ⟨h2.1, of_decide_eq_true h2.2⟩

/-- Every hit of `find_api_spec` carries a score strictly above 1/2. -/
theorem find_results_score_gt (model : String → List ℚ) (st : Server)
    (d : String) (limit : Nat) {m : MappedEndpoint}
    (hm : m ∈ (find_api_spec model st d limit).1.results) :
    (1 : ℚ)/2 < m.similarity := by
  cases h : st.modelReady
  · rw [find_api_spec_not_ready model st d limit h] at hm
    simp at hm
  · rw [find_api_spec_results_ready model st d limit h] at hm
    simp only at hm
    rcases List.mem_map.mp hm with ⟨e, he, rfl⟩
    have h3 := (mem_endpointsQuery he).2
    simpa [mapEndpoint] using h3

/-- Every hit of `search_documents` carries a score strictly above 1/2. -/
theorem search_results_score_gt (model : String → List ℚ) (st : Server)
    (q : String) (limit : Nat) {r : DocumentSearchResult}
    (hr : r ∈ (search_documents model st q limit).1.results) :
    (1 : ℚ)/2 < r.score := by
  cases h : st.modelReady
  · rw [search_documents_not_ready model st q limit h] at hr
    simp at hr
  · rw [search_documents_ready model st q limit h] at hr
    simp only at hr
    rcases List.mem_map.mp hr with ⟨p, hp, rfl⟩
    have h3 := (mem_documentsQuery hp).2
    simpa [mapDocumentResult] using h3

/-- The `auditsTable` written by a successful `find_api_spec` call when the
`audits` insert does not throw (whatever the `auditResults` insert does). -/
theorem find_api_spec_audits_ok (model : String → List ℚ) (st : Server)
    (d : String) (limit : Nat) (h : st.modelReady = true)
    (h1 : st.auditInsertFails = false) :
    (find_api_spec model st d limit).2.auditsTable =
      st.auditsTable ++
        [{ id := st.nextId, query := d,
           total_result_count := (find_api_spec model st d limit).1.results.length,
           created_at := st.now }] := by
  unfold find_api_spec getEmbedding
  rw [h, h1]
  cases h2 : st.auditResultsInsertFails <;> rfl

/-! ### Claim theorems -/

/-- C1: every hit of the `find_api_spec` and `search_documents` tools has
cosine similarity (score) of at least 0.5: with the fixed
`score_threshold` 0.5 of the SQL filter, no returned hit has similarity
below 0.5. -/
theorem search_scores_at_least_half (model : String → List ℚ) (st : Server)
    (d q : String) (lf ls : Nat) :
    (∀ m ∈ (find_api_spec model st d lf).1.results,
      ¬ m.similarity < (1 : ℚ)/2) ∧
    (∀ r ∈ (search_documents model st q ls).1.results,
      ¬ r.score < (1 : ℚ)/2) :=
  ⟨fun _ hm => not_lt.mpr (le_of_lt (find_results_score_gt model st d lf hm)),
   fun _ hr => not_lt.mpr (le_of_lt (search_results_score_gt model st q ls hr))⟩

/-- Witness for C1: the hit returned on a one-endpoint index has score
at least 1/2. -/
theorem search_scores_at_least_half_witness :
    ¬ (mapEndpoint [1] baseEndpoint).similarity < (1 : ℚ)/2 := by
  refine (search_scores_at_least_half constModel epServer "q" "q" 5 5).1
    (mapEndpoint [1] baseEndpoint) ?_
  norm_num [find_api_spec, getEmbedding, epServer, baseServer, constModel,
    endpointsQuery, similarity, dot, baseEndpoint, sortByScoreDesc, insertDesc]

/-- C2 (amended): only `find_api_spec` performs audit logging.  When the
model is ready and the audit inserts do not throw, one `AuditRecord` is
appended whose `total_result_count` is the number of returned hits, and
one `AuditResult` row is appended per returned hit (carrying that hit's
endpoint id).  `search_documents` performs no write at all: its handler
leaves the server state untouched. -/
theorem audit_write_accounting (model : String → List ℚ) (st : Server)
    (d q : String) (l l2 : Nat) (h : st.modelReady = true)
    (h1 : st.auditInsertFails = false)
    (h2 : st.auditResultsInsertFails = false) :
    (find_api_spec model st d l).2.auditsTable =
      st.auditsTable ++
        [{ id := st.nextId, query := d,
           total_result_count := (find_api_spec model st d l).1.results.length,
           created_at := st.now }] ∧
    (find_api_spec model st d l).2.auditResultsTable.map
        AuditResultRow.endpoint_id =
      st.auditResultsTable.map AuditResultRow.endpoint_id ++
        (find_api_spec model st d l).1.results.map MappedEndpoint.id ∧
    (search_documents model st q l2).2 = st := by
  refine ⟨find_api_spec_audits_ok model st d l h h1, ?_,
    search_documents_state model st q l2⟩
  rw [find_api_spec_state_ok model st d l h h1 h2]
  simp only [List.map_append, List.map_map]
  congr 1
  have : (AuditResultRow.endpoint_id ∘ fun p : Nat × MappedEndpoint =>
      ({ id := st.nextId + 1 + p.1, audit_id := st.nextId,
         schema_id := p.2.schema_id, endpoint_id := p.2.id,
         result_count := 1, created_at := st.now } : AuditResultRow)) =
      MappedEndpoint.id ∘ Prod.snd := rfl
  rw [this, ← List.map_map, List.enum_map_snd]

/-- Witness for C2's amended theorem at a concrete one-hit search. -/
theorem audit_write_accounting_witness :
    (find_api_spec constModel epServer "q" 5).2.auditsTable =
      epServer.auditsTable ++
        [{ id := epServer.nextId, query := "q",
           total_result_count :=
             (find_api_spec constModel epServer "q" 5).1.results.length,
           created_at := epServer.now }] ∧
    (search_documents constModel epServer "q2" 10).2 = epServer := by
  have h := audit_write_accounting constModel epServer "q" "q2" 5 10 rfl rfl rfl
  exact ⟨h.1, h.2.2⟩

/-- Counterexample for C2 as stated: a successful `search_documents` call
returning one hit writes no `AuditRecord` and no `AuditResult` — its
handler contains no insert, so the audit tables stay empty. -/
theorem search_documents_writes_no_audit :
    (search_documents constModel docServer "q" 10).1.isError = false ∧
    (search_documents constModel docServer "q" 10).1.results.length = 1 ∧
    (search_documents constModel docServer "q" 10).2.auditsTable = [] ∧
    (search_documents constModel docServer "q" 10).2.auditResultsTable = [] := by
  refine ⟨?_, ?_, ?_, ?_⟩ <;>
    norm_num [search_documents, getEmbedding, docServer, baseServer, constModel,
      documentsQuery, joinChunksDocuments, chunkSimilarity, dot, baseChunk,
      baseDocument, sortByScoreDesc, insertDesc, mapDocumentResult]

/-- C3 (amended): the endpoint search exposes no opt-in/opt-out for
soft-deleted entries — its only inputs are the query text and the limit,
and the response is entirely independent of every row's `deleted_at`
column (the SELECT neither filters on nor returns it), so soft-deleted
Operations are always included on the same footing as live ones. -/
theorem find_api_spec_ignores_deleted_at (model : String → List ℚ)
    (st : Server) (d : String) (limit : Nat)
    (ts : EndpointRow → Option Nat) :
    (find_api_spec model
        { st with endpointsTable :=
            st.endpointsTable.map fun r => { r with deleted_at := ts r } }
        d limit).1 =
      (find_api_spec model st d limit).1 := by
  rcases Bool.eq_false_or_eq_true st.modelReady with h | h
  · rw [find_api_spec_results_ready model
        { st with endpointsTable :=
            st.endpointsTable.map fun r => { r with deleted_at := ts r } }
        d limit h,
      find_api_spec_results_ready model st d limit h]
    simp only
    congr 1
    unfold endpointsQuery
    rw [List.filter_map, sortByScoreDesc_map, ← List.map_take, List.map_map]
    rfl
  · rw [find_api_spec_not_ready model
        { st with endpointsTable :=
            st.endpointsTable.map fun r => { r with deleted_at := ts r } }
        d limit h,
      find_api_spec_not_ready model st d limit h]

/-- Counterexample for C3 as stated: soft-deleting the only endpoint
changes nothing a caller can observe — the responses on the live and the
soft-deleted index are identical and both include the row — so no choice
of caller input includes or excludes soft-deleted entries. -/
theorem soft_deleted_always_included :
    (find_api_spec constModel deletedServer "q" 5).1 =
      (find_api_spec constModel epServer "q" 5).1 ∧
    (find_api_spec constModel deletedServer "q" 5).1.results.map
      MappedEndpoint.id = ["e1"] ∧
    deletedServer.endpointsTable.map EndpointRow.deleted_at = [some 0] := by
  refine ⟨?_, ?_, rfl⟩
  · exact find_api_spec_ignores_deleted_at constModel epServer "q" 5
      fun _ => some 0
  · norm_num [find_api_spec, getEmbedding, deletedServer, baseServer,
      constModel, endpointsQuery, similarity, dot, baseEndpoint,
      sortByScoreDesc, insertDesc, mapEndpoint]

/-- C4 (amended): the tools accept no `score_threshold` parameter; the
fixed cutoff 0.5 of the SQL filter is applied on every call, so a row
scoring 1/2 or below is never returned — even when fewer than `limit`
hits exist. -/
theorem fixed_threshold_always_applied (model : String → List ℚ)
    (st : Server) (d q : String) (lf ls : Nat) :
    (∀ m ∈ (find_api_spec model st d lf).1.results,
      (1 : ℚ)/2 < m.similarity) ∧
    (∀ r ∈ (search_documents model st q ls).1.results,
      (1 : ℚ)/2 < r.score) :=
  ⟨fun _ hm => find_results_score_gt model st d lf hm,
   fun _ hr => search_results_score_gt model st q ls hr⟩

/-- Witness for C4's amended theorem. -/
theorem fixed_threshold_always_applied_witness :
    (1 : ℚ)/2 < (mapEndpoint [1] baseEndpoint).similarity := by
  refine (fixed_threshold_always_applied constModel epServer "q" "q" 5 5).1
    (mapEndpoint [1] baseEndpoint) ?_
  norm_num [find_api_spec, getEmbedding, epServer, baseServer, constModel,
    endpointsQuery, similarity, dot, baseEndpoint, sortByScoreDesc, insertDesc]

/-- Counterexample for C4 as stated: with no `score_threshold` supplied
(none exists to supply), a lone endpoint scoring 3/10 is dropped rather
than returned, although `limit` = 5 hits were requested and the index
holds one row — the cutoff is applied even when the caller omitted any
threshold. -/
theorem no_threshold_param_counterexample :
    lowScoreServer.endpointsTable.length = 1 ∧
    similarity [1] { baseEndpoint with embedding_vector := [3/10] } = 3/10 ∧
    (find_api_spec constModel lowScoreServer "q" 5).1 =
      { isError := false, results := [] } := by
    refine ⟨rfl, ?_, ?_⟩
    · norm_num [similarity, dot]
    · norm_num [find_api_spec, getEmbedding, lowScoreServer, baseServer,
        constModel, endpointsQuery, similarity, dot, baseEndpoint,
        sortByScoreDesc, insertDesc]

/-- C5 (amended): the hits of `find_api_spec` are ordered by nonincreasing
score, and the handler is a function of (model, state, query, limit) —
identical inputs give identical output; but the SQL orders by the
similarity expression alone, with no tie-break on insertion recency:
equal-score hits appear in table (insertion) order. -/
theorem find_results_sorted_descending (model : String → List ℚ)
    (st : Server) (d : String) (limit : Nat) :
    ((find_api_spec model st d limit).1.results).Pairwise
      fun a b => b.similarity ≤ a.similarity := by
  cases h : st.modelReady
  · rw [find_api_spec_not_ready model st d limit h]
    simp
  · rw [find_api_spec_results_ready model st d limit h]
    simp only
    rw [List.pairwise_map]
    exact ((pairwise_sortByScoreDesc
        (similarity (model (EMBEDDING_INSTRUCTIONS ++ d))) _).sublist
      (List.take_sublist _ _))

/-- Counterexample for C5 as stated: two endpoints with identical vectors
(equal scores), `"e1"` inserted before `"e2"` — the more recently
inserted `"e2"` is returned second, not first, because the query's
`ORDER BY` has no recency tie-break. -/
theorem tie_break_recency_counterexample :
    similarity [1] baseEndpoint =
      similarity [1] { baseEndpoint with id := "e2" } ∧
    (find_api_spec constModel tieServer "q" 5).1.results.map
      MappedEndpoint.id = ["e1", "e2"] := by
  refine ⟨rfl, ?_⟩
  norm_num [find_api_spec, getEmbedding, tieServer, baseServer, constModel,
    endpointsQuery, similarity, dot, baseEndpoint, sortByScoreDesc,
    insertDesc, mapEndpoint]

/-- C6: a failure of the audit writes (either insert throwing) never
reaches the caller of `find_api_spec`: the response is identical under
every combination of audit fault flags, and a ready model always yields
a non-error response carrying the ranked results. -/
theorem audit_failure_invisible (model : String → List ℚ) (st : Server)
    (d : String) (limit : Nat) (b1 b2 : Bool)
    (h : st.modelReady = true) :
    (find_api_spec model
        { st with auditInsertFails := b1, auditResultsInsertFails := b2 }
        d limit).1 =
      (find_api_spec model st d limit).1 ∧
    (find_api_spec model st d limit).1.isError = false := by
  constructor
  · rw [find_api_spec_results_ready model
        { st with auditInsertFails := b1, auditResultsInsertFails := b2 }
        d limit h,
      find_api_spec_results_ready model st d limit h]
  · rw [find_api_spec_results_ready model st d limit h]

/-- Witness for C6: both audit inserts failing, same response. -/
theorem audit_failure_invisible_witness :
    (find_api_spec constModel
        { epServer with
          auditInsertFails := true,
          auditResultsInsertFails := true } "q" 5).1 =
      (find_api_spec constModel epServer "q" 5).1 ∧
    (find_api_spec constModel epServer "q" 5).1.isError = false :=
  audit_failure_invisible constModel epServer "q" 5 true true rfl

/-- C7: before `initializeEmbeddingModel` completes, `getEmbedding` fails
with the model-not-initialized error instead of producing a vector, and a
search request on an unready server returns the error response with no
results and an untouched state (the index is never queried, no audit is
written). -/
theorem embed_before_init_errors (model : String → List ℚ) (st : Server)
    (t d q : String) (lf ls : Nat) (h : st.modelReady = false) :
    getEmbedding st.modelReady model t = .error modelNotReadyMessage ∧
    find_api_spec model st d lf = ({ isError := true, results := [] }, st) ∧
    search_documents model st q ls = ({ isError := true, results := [] }, st) := by
  refine ⟨?_, find_api_spec_not_ready model st d lf h,
    search_documents_not_ready model st q ls h⟩
  unfold getEmbedding
  rw [h]
  rfl

/-- Witness for C7 on a concrete unready server. -/
theorem embed_before_init_errors_witness :
    notReadyServer.modelReady = false ∧
    getEmbedding notReadyServer.modelReady constModel "t" =
      .error modelNotReadyMessage ∧
    find_api_spec constModel notReadyServer "q" 5 =
      ({ isError := true, results := [] }, notReadyServer) := by
  have h := embed_before_init_errors constModel notReadyServer "t" "q" "q2"
    5 10 rfl
  exact ⟨rfl, h.1, h.2.1⟩

/-- C8: the zod schema of the `limit` argument accepts a value exactly
when `1 ≤ k ≤ 30`, rejects out-of-range values with a validation error,
and substitutes the default 5 when `find_api_spec`'s limit is omitted. -/
theorem limit_validation :
    zodLimit 5 none = .ok 5 ∧
    (∀ (dv v : ℚ), 1 ≤ v → v ≤ 30 → zodLimit dv (some v) = .ok v) ∧
    (∀ (dv v : ℚ), v < 1 ∨ 30 < v →
      ∃ msg, zodLimit dv (some v) = .error msg) := by
  refine ⟨rfl, ?_, ?_⟩
  · intro dv v h1 h2
    simp only [zodLimit]
    rw [if_neg (by linarith), if_neg (by linarith)]
  · intro dv v h
    simp only [zodLimit]
    rcases h with h | h
    · exact ⟨_, by rw [if_pos h]⟩
    · exact ⟨_, by rw [if_neg (by linarith), if_pos h]⟩

/-- Witness for C8 at the boundary values. -/
theorem limit_validation_witness :
    zodLimit 5 none = .ok 5 ∧ zodLimit 5 (some 30) = .ok 30 ∧
    (∃ msg, zodLimit 5 (some 31) = .error msg) ∧
    (∃ msg, zodLimit 5 (some 0) = .error msg) :=
  ⟨limit_validation.1,
   limit_validation.2.1 5 30 (by norm_num) (by norm_num),
   limit_validation.2.2 5 31 (Or.inr (by norm_num)),
   limit_validation.2.2 5 0 (Or.inl (by norm_num))⟩

/-- C9 (amended): for every valid config `0 ≤ overlap < chunk_size`, the
chunker's windows start at offsets 0, s, 2s, … (`s = chunk_size −
overlap`), each holding the next `chunk_size` tokens — at most
`chunk_size`, with trailing windows (not only the final one, when
`overlap > 0`) possibly shorter — and concatenating the chunks after
dropping the first `overlap` tokens of every chunk except the first
reconstructs the token stream exactly. -/
theorem chunker_windows_and_reconstruction {α : Type} (chunkSize overlap : Nat)
    (hov : overlap < chunkSize) (tokens : List α) :
    (∀ (j : Nat) (hj : j < (chunkTokens tokens chunkSize overlap).length),
      (chunkTokens tokens chunkSize overlap)[j] =
        (tokens.drop (j * (chunkSize - overlap))).take chunkSize) ∧
    (∀ c ∈ chunkTokens tokens chunkSize overlap, c.length ≤ chunkSize) ∧
    deOverlap overlap (chunkTokens tokens chunkSize overlap) = tokens :=
  ⟨fun j hj => chunkTokens_getElem tokens j hj,
   fun _ hc => chunkTokens_length_le hc,
   deOverlap_chunkTokens hov tokens⟩

/-- Witness for C9's amended theorem: 10 tokens, chunk size 4, overlap 3. -/
theorem chunker_windows_and_reconstruction_witness :
    3 < 4 ∧ deOverlap 3 (chunkTokens (List.range 10) 4 3) = List.range 10 :=
  ⟨by decide,
   (chunker_windows_and_reconstruction 4 3 (by decide) (List.range 10)).2.2⟩

/-- Counterexample for C9 as stated: on 10 tokens with chunk size 4 and
overlap 3 the loop emits 10 windows, and already window 7 — two windows
before the final one — holds only 3 tokens, contradicting "windows of
chunk_size tokens (the final window may be shorter)". -/
theorem chunk_window_length_counterexample :
    (chunkTokens (List.range 10) 4 3).length = 10 ∧
    ((chunkTokens (List.range 10) 4 3).getD 7 []).length = 3 := by
  decide

/-- C10: both tools embed the caller's text only with the fixed
instruction text prepended — the handlers depend on the model solely
through its value at `EMBEDDING_INSTRUCTIONS ++ text`, which differs from
the raw text — while the `AuditRecord` stores the raw query text without
the instruction. -/
theorem only_prefixed_query_embedded (m1 m2 : String → List ℚ) (st : Server)
    (d : String) (l l2 : Nat)
    (h : m1 (EMBEDDING_INSTRUCTIONS ++ d) = m2 (EMBEDDING_INSTRUCTIONS ++ d))
    (hready : st.modelReady = true) (hfail : st.auditInsertFails = false) :
    find_api_spec m1 st d l = find_api_spec m2 st d l ∧
    search_documents m1 st d l2 = search_documents m2 st d l2 ∧
    EMBEDDING_INSTRUCTIONS ++ d ≠ d ∧
    ((find_api_spec m1 st d l).2.auditsTable.getLast?).map AuditRow.query =
      some d := by
  refine ⟨?_, ?_, ?_, ?_⟩
  · unfold find_api_spec getEmbedding
    rw [hready, h]
  · unfold search_documents getEmbedding
    rw [hready, h]
  · intro heq
    have hlen := congrArg String.length heq
    rw [String.length_append] at hlen
    have h0 : EMBEDDING_INSTRUCTIONS.length = 57 := rfl
    omega
  · rw [find_api_spec_audits_ok m1 st d l hready hfail]
    simp

/-- Witness for C10: a model agreeing with `constModel` only on the
prefixed query is indistinguishable to both tools. -/
theorem only_prefixed_query_embedded_witness :
    find_api_spec constModel epServer "q" 5 =
      find_api_spec prefixOnlyModel epServer "q" 5 ∧
    EMBEDDING_INSTRUCTIONS ++ "q" ≠ "q" := by
  have h := only_prefixed_query_embedded constModel prefixOnlyModel epServer
    "q" 5 5 (by simp [constModel, prefixOnlyModel]) rfl rfl
  exact ⟨h.1, h.2.2.1⟩

end PlanetEarth
